import Mathlib

/-!
Shallow embedding of the figma-mcp repository's exported-resource cache,
URL parser, API client request construction, and request dispatcher, with
theorems checking the specification's claims against the embedded code.
-/

/-- Error variants of the crate as constructed across src/error.rs,
src/figma/image_cache.rs and src/figma/url_parser.rs. -/
inductive Error where
  | FigmaApi (msg : String)
  | InvalidUrl (msg : String)
  | Auth (msg : String)
  | UrlParse
  | NotFound (msg : String)
  | Internal (msg : String)
deriving DecidableEq, Repr

/-- One cache entry, from `ImageEntry` in src/figma/image_cache.rs.
`scale : f64` is modelled as a rational number; `export_time : SystemTime`
is modelled as a whole-second timestamp; `cached_data : Option<Vec<u8>>`
as an optional list of byte values. -/
structure ImageEntry where
  file_key : String
  node_id : String
  format : String
  scale : ℚ
  figma_url : String
  cached_data : Option (List Nat)
  export_time : Nat
deriving DecidableEq, Repr

/-- The cache's `HashMap<String, ImageEntry>` modelled as an association
list keyed by URI (at most one binding per key is ever observable through
`lookupAL`/`insertAL`). -/
def CacheMap := List (String × ImageEntry)

instance : DecidableEq CacheMap := by unfold CacheMap; infer_instance

instance {ε α : Type} [DecidableEq ε] [DecidableEq α] : DecidableEq (Except ε α) :=
  fun a b =>
    match a, b with
    | Except.ok x, Except.ok y =>
      if h : x = y then isTrue (by rw [h]) else isFalse (by intro hh; cases hh; exact h rfl)
    | Except.error x, Except.error y =>
      if h : x = y then isTrue (by rw [h]) else isFalse (by intro hh; cases hh; exact h rfl)
    | Except.ok _, Except.error _ => isFalse (by intro hh; cases hh)
    | Except.error _, Except.ok _ => isFalse (by intro hh; cases hh)

/-- `HashMap::get`: first binding for the key, if any. -/
def lookupAL (m : CacheMap) (k : String) : Option ImageEntry :=
  match m with
  | [] => none
  | (k0, v0) :: rest => if k0 = k then some v0 else lookupAL rest k

/-- `HashMap::insert`: replace the binding in place if present, else append. -/
def insertAL (m : CacheMap) (k : String) (v : ImageEntry) : CacheMap :=
  match m with
  | [] => [(k, v)]
  | (k0, v0) :: rest => if k0 = k then (k, v) :: rest else (k0, v0) :: insertAL rest k v

/-- Rust's `f64 as u32` cast for a non-NaN value: truncate toward zero,
saturating at 0 and at u32::MAX. -/
def f64toU32 (q : ℚ) : Nat :=
  if q ≤ 0 then 0 else min (q.num.toNat / q.den) 4294967295

/-- `ImageCache::generate_uri` (src/figma/image_cache.rs lines 104-110). -/
def ImageCache.generate_uri (file_key node_id format : String) (scale : ℚ) : String :=
  if scale ≠ 1 then
    "figma://file/" ++ file_key ++ "/node/" ++ node_id ++ "@" ++ toString (f64toU32 scale) ++ "x." ++ format
  else
    "figma://file/" ++ file_key ++ "/node/" ++ node_id ++ "." ++ format

/-- `ImageCache::register_export` (lines 30-55): build a fresh entry with
no cached bytes and `export_time = now`, insert it under the generated URI,
return the URI.  The write-lock acquisition, whose only failure mode is
poisoning, is modelled at the dispatcher level (see `register_export_r`). -/
def ImageCache.register_export (m : CacheMap) (now : Nat)
    (file_key node_id format : String) (scale : ℚ) (figma_url : String) :
    String × CacheMap :=
  let uri := ImageCache.generate_uri file_key node_id format scale
  let entry : ImageEntry :=
    { file_key := file_key, node_id := node_id, format := format, scale := scale,
      figma_url := figma_url, cached_data := none, export_time := now }
  (uri, insertAL m uri entry)

/-- `ImageCache::get_entry` (lines 66-71): a copy of the entry, if present. -/
def ImageCache.get_entry (m : CacheMap) (uri : String) : Option ImageEntry :=
  lookupAL m uri

/-- `ImageCache::update_cached_data` (lines 73-83): set `cached_data` on the
existing entry and succeed, else fail with `NotFound`; the map component of
the result is the state of the map after the call. -/
def ImageCache.update_cached_data (m : CacheMap) (uri : String) (data : List Nat) :
    Except Error Unit × CacheMap :=
  match lookupAL m uri with
  | some entry => (Except.ok (), insertAL m uri { entry with cached_data := some data })
  | none => (Except.error (Error.NotFound ("Resource not found: " ++ uri)), m)

/-- `SystemTime::elapsed` at whole-second resolution: errors exactly when
the stored time is later than the current time. -/
def elapsedSecs (earlier now : Nat) : Option Nat :=
  if earlier ≤ now then some (now - earlier) else none

/-- `ImageCache::is_expired` (lines 85-92): expired when more than 3600
seconds have elapsed since the export, or when elapsed time cannot be
determined. -/
def ImageCache.is_expired (now : Nat) (entry : ImageEntry) : Bool :=
  match elapsedSecs entry.export_time now with
  | some secs => decide (secs > 3600)
  | none => true

theorem lookupAL_insertAL_self (m : CacheMap) (k : String) (v : ImageEntry) :
    lookupAL (insertAL m k v) k = some v := by
  induction m with
  | nil => simp [insertAL, lookupAL]
  | cons hd tl ih =>
    obtain ⟨k0, v0⟩ := hd
    by_cases h : k0 = k
    · simp [insertAL, lookupAL, h]
    · simp [insertAL, lookupAL, h, ih]

theorem lookupAL_insertAL_ne (m : CacheMap) (k k' : String) (v : ImageEntry)
    (h : k' ≠ k) : lookupAL (insertAL m k v) k' = lookupAL m k' := by
  induction m with
  | nil => simp [insertAL, lookupAL, Ne.symm h]
  | cons hd tl ih =>
    obtain ⟨k0, v0⟩ := hd
    by_cases h0 : k0 = k
    · subst h0
      simp [insertAL, lookupAL, Ne.symm h]
    · simp [insertAL, lookupAL, h0, ih]

/-- C2: register computes the URI deterministically — no scale suffix at
scale 1.0, an `@{scale truncated to u32}x` suffix otherwise — and returns
that URI. -/
theorem c2_register_uri_generation (fk nid fmt : String) (sc : ℚ)
    (m : CacheMap) (now : Nat) (url : String) :
    (sc = 1 →
      ImageCache.generate_uri fk nid fmt sc =
        "figma://file/" ++ fk ++ "/node/" ++ nid ++ "." ++ fmt)
    ∧ (sc ≠ 1 →
      ImageCache.generate_uri fk nid fmt sc =
        "figma://file/" ++ fk ++ "/node/" ++ nid ++ "@" ++ toString (f64toU32 sc) ++ "x." ++ fmt)
    ∧ (ImageCache.register_export m now fk nid fmt sc url).1 =
        ImageCache.generate_uri fk nid fmt sc := by
  refine ⟨fun h => ?_, fun h => ?_, rfl⟩
  · simp [ImageCache.generate_uri, h]
  · simp [ImageCache.generate_uri, h]

theorem c2_register_uri_generation_witness :
    (2 : ℚ) ≠ 1
    ∧ ImageCache.generate_uri "ABC123" "1:2" "png" 2 = "figma://file/ABC123/node/1:2@2x.png"
    ∧ (ImageCache.register_export [] 0 "ABC123" "1:2" "png" 1 "https://x/y").1 =
        "figma://file/ABC123/node/1:2.png" := by
  have h2 := (c2_register_uri_generation "ABC123" "1:2" "png" 2 [] 0 "https://x/y").2.1 (by decide)
  have h1 := (c2_register_uri_generation "ABC123" "1:2" "png" 1 [] 0 "https://x/y").1 rfl
  have h3 := (c2_register_uri_generation "ABC123" "1:2" "png" 1 [] 0 "https://x/y").2.2
  refine ⟨by decide, ?_, ?_⟩
  · rw [h2]; decide
  · rw [h3, h1]; decide

/-- C3: update_cached_data sets `cached_data` on the existing entry and
succeeds when the URI is present (other keys untouched), and fails with
NotFound when the URI is unknown, returning the map completely unchanged. -/
theorem c3_update_cached_data_spec (m : CacheMap) (uri : String) (data : List Nat) :
    (∀ e, ImageCache.get_entry m uri = some e →
      (ImageCache.update_cached_data m uri data).1 = Except.ok ()
      ∧ ImageCache.get_entry (ImageCache.update_cached_data m uri data).2 uri =
          some { e with cached_data := some data }
      ∧ ∀ k, k ≠ uri →
          ImageCache.get_entry (ImageCache.update_cached_data m uri data).2 k =
            ImageCache.get_entry m k)
    ∧ (ImageCache.get_entry m uri = none →
      ImageCache.update_cached_data m uri data =
        (Except.error (Error.NotFound ("Resource not found: " ++ uri)), m)) := by
  constructor
  · intro e he
    refine ⟨?_, ?_, ?_⟩
    · simp [ImageCache.update_cached_data, ImageCache.get_entry] at he ⊢
      rw [he]
    · simp [ImageCache.update_cached_data, ImageCache.get_entry] at he ⊢
      rw [he]
      exact lookupAL_insertAL_self m uri _
    · intro k hk
      simp [ImageCache.update_cached_data, ImageCache.get_entry] at he ⊢
      rw [he]
      exact lookupAL_insertAL_ne m uri k _ hk
  · intro he
    simp [ImageCache.update_cached_data, ImageCache.get_entry] at he ⊢
    rw [he]

theorem c3_update_cached_data_spec_witness :
    (ImageCache.update_cached_data
        [("u", ⟨"F", "N", "png", 1, "https://x", none, 0⟩)] "u" [137, 80]).1 = Except.ok ()
    ∧ ImageCache.get_entry (ImageCache.update_cached_data
        [("u", ⟨"F", "N", "png", 1, "https://x", none, 0⟩)] "u" [137, 80]).2 "u" =
        some ⟨"F", "N", "png", 1, "https://x", some [137, 80], 0⟩
    ∧ ImageCache.update_cached_data
        [("u", ⟨"F", "N", "png", 1, "https://x", none, 0⟩)] "other" [137, 80] =
        (Except.error (Error.NotFound "Resource not found: other"),
          [("u", ⟨"F", "N", "png", 1, "https://x", none, 0⟩)]) := by
  have h := (c3_update_cached_data_spec
    [("u", ⟨"F", "N", "png", 1, "https://x", none, 0⟩)] "u" [137, 80]).1
    ⟨"F", "N", "png", 1, "https://x", none, 0⟩ (by decide)
  have h2 := (c3_update_cached_data_spec
    [("u", ⟨"F", "N", "png", 1, "https://x", none, 0⟩)] "other" [137, 80]).2 (by decide)
  refine ⟨h.1, ?_, ?_⟩
  · rw [h.2.1]
  · rw [h2]; decide

/-- C4: is_expired is true exactly when the (whole-second) elapsed time
since `export_time` exceeds 3600, or when elapsed time cannot be determined
because the stored time lies in the future; it is false at registration
time and true once more than 3600 seconds have elapsed. -/
theorem c4_is_expired_ttl (now : Nat) (e : ImageEntry) (m : CacheMap)
    (t d : Nat) (fk nid fmt url : String) (sc : ℚ) :
    (ImageCache.is_expired now e = true ↔
      (e.export_time ≤ now ∧ now - e.export_time > 3600) ∨ now < e.export_time)
    ∧ (∀ e', ImageCache.get_entry (ImageCache.register_export m t fk nid fmt sc url).2
          (ImageCache.register_export m t fk nid fmt sc url).1 = some e' →
        ImageCache.is_expired t e' = false
        ∧ (3600 < d → ImageCache.is_expired (t + d) e' = true)) := by
  constructor
  · unfold ImageCache.is_expired elapsedSecs
    by_cases h : e.export_time ≤ now
    · simp [h, Nat.not_lt.mpr h]
    · simp [h, Nat.lt_of_not_le h]
  · intro e' he'
    have hl := lookupAL_insertAL_self m (ImageCache.register_export m t fk nid fmt sc url).1
      ⟨fk, nid, fmt, sc, url, none, t⟩
    simp only [ImageCache.register_export, ImageCache.get_entry] at he' hl
    rw [hl] at he'
    obtain rfl : (⟨fk, nid, fmt, sc, url, none, t⟩ : ImageEntry) = e' := by
      exact Option.some.inj he'
    constructor
    · simp [ImageCache.is_expired, elapsedSecs]
    · intro hd
      simp [ImageCache.is_expired, elapsedSecs, Nat.le_add_right]
      omega

theorem c4_is_expired_ttl_witness :
    ImageCache.is_expired 5000 (⟨"F", "N", "png", 1, "u", none, 1000⟩ : ImageEntry) = true
    ∧ ImageCache.is_expired 100 (⟨"F", "N", "png", 1, "u", none, 100⟩ : ImageEntry) = false := by
  constructor
  · exact ((c4_is_expired_ttl 5000 ⟨"F", "N", "png", 1, "u", none, 1000⟩ [] 0 0 "" "" "" "" 1).1).mpr
      (Or.inl ⟨by decide, by decide⟩)
  · exact (((c4_is_expired_ttl 0 ⟨"F", "N", "png", 1, "u", none, 0⟩ [] 100 3601 "F" "N" "png" "u" 1).2
      ⟨"F", "N", "png", 1, "u", none, 100⟩ (by decide)).1)

/-- C5: re-registering the same (file_key, node_id, format, scale)
overwrites the entry with a fresh one: even after a download populated
`cached_data`, the re-registered entry has `cached_data = none` and
`export_time` equal to the new registration time, under the same URI. -/
theorem c5_reregister_resets (m : CacheMap) (t1 t2 : Nat)
    (fk nid fmt url1 url2 : String) (sc : ℚ) (data : List Nat) :
    ImageCache.get_entry
        (ImageCache.update_cached_data (ImageCache.register_export m t1 fk nid fmt sc url1).2
          (ImageCache.register_export m t1 fk nid fmt sc url1).1 data).2
        (ImageCache.register_export m t1 fk nid fmt sc url1).1 =
      some ⟨fk, nid, fmt, sc, url1, some data, t1⟩
    ∧ (ImageCache.register_export
        (ImageCache.update_cached_data (ImageCache.register_export m t1 fk nid fmt sc url1).2
          (ImageCache.register_export m t1 fk nid fmt sc url1).1 data).2
        t2 fk nid fmt sc url2).1 = (ImageCache.register_export m t1 fk nid fmt sc url1).1
    ∧ ImageCache.get_entry
        (ImageCache.register_export
          (ImageCache.update_cached_data (ImageCache.register_export m t1 fk nid fmt sc url1).2
            (ImageCache.register_export m t1 fk nid fmt sc url1).1 data).2
          t2 fk nid fmt sc url2).2
        (ImageCache.register_export m t1 fk nid fmt sc url1).1 =
      some ⟨fk, nid, fmt, sc, url2, none, t2⟩ := by
  have hreg : lookupAL (ImageCache.register_export m t1 fk nid fmt sc url1).2
      (ImageCache.register_export m t1 fk nid fmt sc url1).1 =
      some ⟨fk, nid, fmt, sc, url1, none, t1⟩ :=
    lookupAL_insertAL_self m _ _
  refine ⟨?_, rfl, ?_⟩
  · simp only [ImageCache.update_cached_data, ImageCache.get_entry, hreg]
    exact lookupAL_insertAL_self _ _ _
  · simp only [ImageCache.update_cached_data, ImageCache.get_entry,
      ImageCache.register_export, hreg]
    exact lookupAL_insertAL_self _ _ _

/-- C10: the URI depends on the scale only through truncation to u32: two
non-1.0 scales with equal truncation generate the same URI, so the later
registration silently overwrites the earlier entry under that shared key. -/
theorem c10_scale_truncation_collision (s1 s2 : ℚ) (fk nid fmt url1 url2 : String)
    (m : CacheMap) (t1 t2 : Nat)
    (h1 : s1 ≠ 1) (h2 : s2 ≠ 1) (h : f64toU32 s1 = f64toU32 s2) :
    ImageCache.generate_uri fk nid fmt s1 = ImageCache.generate_uri fk nid fmt s2
    ∧ ImageCache.get_entry
        (ImageCache.register_export (ImageCache.register_export m t1 fk nid fmt s1 url1).2
          t2 fk nid fmt s2 url2).2
        (ImageCache.register_export m t1 fk nid fmt s1 url1).1 =
      some ⟨fk, nid, fmt, s2, url2, none, t2⟩ := by
  have huri : ImageCache.generate_uri fk nid fmt s1 = ImageCache.generate_uri fk nid fmt s2 := by
    simp [ImageCache.generate_uri, h1, h2, h]
  refine ⟨huri, ?_⟩
  simp only [ImageCache.register_export, ImageCache.get_entry]
  rw [huri]
  exact lookupAL_insertAL_self _ _ _

theorem c10_scale_truncation_collision_witness :
    (2 : ℚ) ≠ 1 ∧ (mkRat 5 2 : ℚ) ≠ 1 ∧ f64toU32 2 = f64toU32 (mkRat 5 2)
    ∧ ImageCache.generate_uri "F" "N" "png" 2 = ImageCache.generate_uri "F" "N" "png" (mkRat 5 2)
    ∧ ImageCache.get_entry
        (ImageCache.register_export (ImageCache.register_export [] 1 "F" "N" "png" 2 "u1").2
          2 "F" "N" "png" (mkRat 5 2) "u2").2
        (ImageCache.register_export [] 1 "F" "N" "png" 2 "u1").1 =
      some ⟨"F", "N", "png", mkRat 5 2, "u2", none, 2⟩ := by
  have h := c10_scale_truncation_collision 2 (mkRat 5 2) "F" "N" "png" "u1" "u2" [] 1 2
    (by decide) (by decide) (by decide)
  exact ⟨by decide, by decide, by decide, h.1, h.2⟩

/-- Error outcomes of the `read_resource` handler in src/server.rs
(each corresponds to one of its distinct error constructions). -/
inductive ReadError where
  | notFound (uri : String)
  | expired
  | downloadFailed (msg : String)
deriving DecidableEq, Repr

/-- The `read_resource` handler (src/server.rs lines 312-376), with the
HTTP fetch (`reqwest::get` + status check + body read) abstracted as a
`download` function from URL to bytes-or-error.  Returns the served bytes
(or the error) together with the cache map after the call; the result of
`update_cached_data` is discarded exactly as the source's `let _ =` does. -/
def read_resource (m : CacheMap) (now : Nat)
    (download : String → Except String (List Nat)) (uri : String) :
    Except ReadError (List Nat) × CacheMap :=
  match ImageCache.get_entry m uri with
  | none => (Except.error (ReadError.notFound uri), m)
  | some entry =>
    match entry.cached_data with
    | some cached => (Except.ok cached, m)
    | none =>
      if ImageCache.is_expired now entry then
        (Except.error ReadError.expired, m)
      else
        match download entry.figma_url with
        | Except.error e => (Except.error (ReadError.downloadFailed e), m)
        | Except.ok data =>
          (Except.ok data, (ImageCache.update_cached_data m uri data).2)

/-- C1: the read protocol follows the spec's step order — unknown URI fails
NotFound; present cached bytes are returned with the same cache and with no
dependence on the clock or the network; absent bytes plus an expired entry
fail Expired for every download function; a download failure surfaces an
error with the cache unchanged; a successful download is persisted through
update_cached_data and the bytes returned. -/
theorem c1_read_resource_protocol (m : CacheMap) (now : Nat)
    (download : String → Except String (List Nat)) (uri : String) :
    (ImageCache.get_entry m uri = none →
      read_resource m now download uri = (Except.error (ReadError.notFound uri), m))
    ∧ (∀ e d, ImageCache.get_entry m uri = some e → e.cached_data = some d →
      ∀ (now' : Nat) (download' : String → Except String (List Nat)),
        read_resource m now' download' uri = (Except.ok d, m))
    ∧ (∀ e, ImageCache.get_entry m uri = some e → e.cached_data = none →
      ImageCache.is_expired now e = true →
      ∀ (download' : String → Except String (List Nat)),
        read_resource m now download' uri = (Except.error ReadError.expired, m))
    ∧ (∀ e msg, ImageCache.get_entry m uri = some e → e.cached_data = none →
      ImageCache.is_expired now e = false → download e.figma_url = Except.error msg →
      read_resource m now download uri = (Except.error (ReadError.downloadFailed msg), m))
    ∧ (∀ e d, ImageCache.get_entry m uri = some e → e.cached_data = none →
      ImageCache.is_expired now e = false → download e.figma_url = Except.ok d →
      (ImageCache.update_cached_data m uri d).1 = Except.ok ()
      ∧ read_resource m now download uri =
          (Except.ok d, insertAL m uri { e with cached_data := some d })) := by
  refine ⟨fun h => ?_, fun e d he hd now' download' => ?_, fun e he hd hexp download' => ?_,
    fun e msg he hd hexp hdl => ?_, fun e d he hd hexp hdl => ⟨?_, ?_⟩⟩
  · simp [read_resource, h]
  · simp [read_resource, he, hd]
  · simp [read_resource, he, hd, hexp]
  · simp [read_resource, he, hd, hexp, hdl]
  · simp only [ImageCache.update_cached_data, ImageCache.get_entry] at he ⊢
    rw [he]
  · simp only [read_resource, he, hd, hexp, hdl, ImageCache.update_cached_data,
      ImageCache.get_entry]
    simp only [ImageCache.get_entry] at he
    rw [he]
    simp [hd, hexp, hdl]

theorem c1_read_resource_protocol_witness :
    read_resource [] 0 (fun _ => Except.error "no net") "u" =
      (Except.error (ReadError.notFound "u"), ([] : CacheMap))
    ∧ read_resource [("u", ⟨"F", "N", "png", 1, "https://x", some [7], 0⟩)] 9999
        (fun _ => Except.error "no net") "u" =
      (Except.ok [7], [("u", ⟨"F", "N", "png", 1, "https://x", some [7], 0⟩)])
    ∧ read_resource [("u", ⟨"F", "N", "png", 1, "https://x", none, 0⟩)] 5000
        (fun _ => Except.ok [9]) "u" =
      (Except.error ReadError.expired, [("u", ⟨"F", "N", "png", 1, "https://x", none, 0⟩)])
    ∧ read_resource [("u", ⟨"F", "N", "png", 1, "https://x", none, 0⟩)] 100
        (fun _ => Except.error "boom") "u" =
      (Except.error (ReadError.downloadFailed "boom"),
        [("u", ⟨"F", "N", "png", 1, "https://x", none, 0⟩)])
    ∧ read_resource [("u", ⟨"F", "N", "png", 1, "https://x", none, 0⟩)] 100
        (fun _ => Except.ok [1, 2]) "u" =
      (Except.ok [1, 2], [("u", ⟨"F", "N", "png", 1, "https://x", some [1, 2], 0⟩)]) := by
  have h := c1_read_resource_protocol ([] : CacheMap) 0 (fun _ => Except.error "no net") "u"
  have h2 := c1_read_resource_protocol
    [("u", ⟨"F", "N", "png", 1, "https://x", some [7], 0⟩)] 0 (fun _ => Except.error "no net") "u"
  have h3 := c1_read_resource_protocol
    [("u", ⟨"F", "N", "png", 1, "https://x", none, 0⟩)] 5000 (fun _ => Except.ok [9]) "u"
  have h4 := c1_read_resource_protocol
    [("u", ⟨"F", "N", "png", 1, "https://x", none, 0⟩)] 100 (fun _ => Except.error "boom") "u"
  have h5 := c1_read_resource_protocol
    [("u", ⟨"F", "N", "png", 1, "https://x", none, 0⟩)] 100 (fun _ => Except.ok [1, 2]) "u"
  refine ⟨h.1 (by decide), ?_, ?_, ?_, ?_⟩
  · exact h2.2.1 ⟨"F", "N", "png", 1, "https://x", some [7], 0⟩ [7] (by decide) (by decide)
      9999 (fun _ => Except.error "no net")
  · exact h3.2.2.1 ⟨"F", "N", "png", 1, "https://x", none, 0⟩ (by decide) (by decide) (by decide)
      (fun _ => Except.ok [9])
  · exact h4.2.2.2.1 ⟨"F", "N", "png", 1, "https://x", none, 0⟩ "boom" (by decide) (by decide)
      (by decide) (by decide)
  · exact (h5.2.2.2.2 ⟨"F", "N", "png", 1, "https://x", none, 0⟩ [1, 2] (by decide) (by decide)
      (by decide) (by decide)).2

/-- Split a character list at the first character failing `keep`:
returns (longest kept segment, remainder starting with the stop character). -/
def spanCL (keep : Char → Bool) : List Char → List Char × List Char
  | [] => ([], [])
  | c :: cs =>
    if keep c then
      let r := spanCL keep cs
      (c :: r.1, r.2)
    else ([], c :: cs)

/-- Strip an expected pattern from the head of a list (a literal piece of
the regex): `some rest` on success, `none` on any mismatch. -/
def stripPre : List Char → List Char → Option (List Char)
  | [], s => some s
  | _ :: _, [] => none
  | p :: ps, c :: cs => if c = p then stripPre ps cs else none

theorem spanCL_all_append_stop (keep : Char → Bool) (a : List Char) (b : Char)
    (t : List Char) (ha : ∀ c ∈ a, keep c = true) (hb : keep b = false) :
    spanCL keep (a ++ b :: t) = (a, b :: t) := by
  induction a with
  | nil => simp [spanCL, hb]
  | cons x xs ih =>
    have hx : keep x = true := ha x (List.mem_cons_self x xs)
    have hxs : ∀ c ∈ xs, keep c = true := fun c hc => ha c (List.mem_cons_of_mem x hc)
    simp [spanCL, hx, ih hxs]

theorem spanCL_all (keep : Char → Bool) (a : List Char)
    (ha : ∀ c ∈ a, keep c = true) : spanCL keep a = (a, []) := by
  induction a with
  | nil => simp [spanCL]
  | cons x xs ih =>
    have hx : keep x = true := ha x (List.mem_cons_self x xs)
    have hxs : ∀ c ∈ xs, keep c = true := fun c hc => ha c (List.mem_cons_of_mem x hc)
    simp [spanCL, hx, ih hxs]

theorem stripPre_same_append (p s : List Char) : stripPre p (p ++ s) = some s := by
  induction p with
  | nil => simp [stripPre]
  | cons x xs ih => simp [stripPre, ih]

/-- A character that may appear in a URL scheme (RFC 3986 / WHATWG). -/
def isSchemeChar (c : Char) : Bool :=
  c.isAlpha || c.isDigit || c = '+' || c = '-' || c = '.'

/-- A character ending the authority component of a hierarchical URL. -/
def isAuthorityEnd (c : Char) : Bool :=
  c = '/' || c = '?' || c = '#'

/-- Model of the `url` crate's parse, restricted to what src/figma/url_parser.rs
consults: the authority of a hierarchical `scheme://...` URL and what follows
it.  Strings of any other shape are treated as unparseable. -/
def urlAuthority : List Char → Option (List Char × List Char)
  | [] => none
  | c :: cs =>
    if c.isAlpha then
      let s := spanCL isSchemeChar (c :: cs)
      (stripPre [':', '/', '/'] s.2).map (fun r => spanCL (fun x => !isAuthorityEnd x) r)
    else none

/-- The characters after the last `@` of the authority (userinfo removed),
as the WHATWG URL parser does. -/
def afterLastAt (l : List Char) : List Char :=
  if l.contains '@' then ((spanCL (fun c => c != '@') l.reverse).1).reverse else l

/-- `Url::host_str()` on the model: userinfo stripped, an all-digit (possibly
empty) port stripped, the host ASCII-lowercased; `none` when the string does
not parse in the model (no hierarchical shape, empty host or malformed port). -/
def urlHostCL (cs : List Char) : Option (List Char) :=
  match urlAuthority cs with
  | none => none
  | some (auth, _) =>
    let hp := afterLastAt auth
    let host := (spanCL (fun c => c != ':') hp).1
    let port := ((spanCL (fun c => c != ':') hp).2).drop 1
    if host = [] then none
    else if port.all Char.isDigit then some (host.map Char.toLower) else none

/-- `Url::path()` on the model: from the end of the authority to the first
`?` or `#`. -/
def urlPathCL (cs : List Char) : Option (List Char) :=
  match urlAuthority cs with
  | none => none
  | some (_, tail) => some ((spanCL (fun c => c != '?' && c != '#') tail).1)

/-- The value captured by `([^&]+)` after the last viable occurrence of
`node-id=` — the match the regex's greedy `.*node-id=([^&]+)` produces
inside the query string. -/
def nodeIdCapture : List Char → Option (List Char)
  | [] => none
  | c :: rest =>
    match nodeIdCapture rest with
    | some v => some v
    | none =>
      match stripPre ['n', 'o', 'd', 'e', '-', 'i', 'd', '='] (c :: rest) with
      | some after =>
        let v := (spanCL (fun x => x != '&') after).1
        if v = [] then none else some v
      | none => none

/-- The capture groups of the file regex
`^https?://(?:www\.)?figma\.com/(?:file|design)/([A-Za-z0-9]+)(?:/[^?]*)?(?:\?.*node-id=([^&]+))?`
of src/figma/url_parser.rs line 27, matched against the raw URL string with
the regex crate's leftmost-first greedy semantics. -/
def fileRegexCL (cs : List Char) : Option (List Char × Option (List Char)) :=
  match (stripPre "https://".toList cs).orElse (fun _ => stripPre "http://".toList cs) with
  | none => none
  | some r1 =>
    let r2 := (stripPre "www.".toList r1).getD r1
    match stripPre "figma.com/".toList r2 with
    | none => none
    | some r3 =>
      match (stripPre "file/".toList r3).orElse (fun _ => stripPre "design/".toList r3) with
      | none => none
      | some r4 =>
        let fid := (spanCL Char.isAlphanum r4).1
        if fid = [] then none
        else
          let r5 := (spanCL Char.isAlphanum r4).2
          let r6 := if r5.head? = some '/' then (spanCL (fun c => c != '?') r5).2 else r5
          match r6 with
          | '?' :: q => some (fid, nodeIdCapture q)
          | _ => some (fid, none)

/-- `FigmaUrlType` from src/figma/url_parser.rs. -/
inductive FigmaUrlType where
  | File (file_id : String) (node_id : Option String)
  | Unknown
deriving DecidableEq, Repr

/-- `FigmaUrlInfo` from src/figma/url_parser.rs. -/
structure FigmaUrlInfo where
  url_type : FigmaUrlType
  original_url : String
deriving DecidableEq, Repr

/-- `FigmaUrlParser::parse` (src/figma/url_parser.rs lines 32-51): parse the
URL (UrlParse error on failure), reject non-figma hosts with InvalidUrl,
then classify by matching the file regex against the raw string. -/
def FigmaUrlParser.parse (url : String) : Except Error FigmaUrlInfo :=
  match urlHostCL url.toList with
  | none => Except.error Error.UrlParse
  | some host =>
    if host = "figma.com".toList ∨ host = "www.figma.com".toList then
      match fileRegexCL url.toList with
      | some (fid, nid) =>
        Except.ok ⟨FigmaUrlType.File (String.mk fid) (nid.map String.mk), url⟩
      | none => Except.ok ⟨FigmaUrlType.Unknown, url⟩
    else Except.error (Error.InvalidUrl ("Not a Figma URL: " ++ url))

example : FigmaUrlParser.parse "https://www.figma.com/file/ABC123/my-design" =
    Except.ok ⟨FigmaUrlType.File "ABC123" none, "https://www.figma.com/file/ABC123/my-design"⟩ := by decide
example : FigmaUrlParser.parse "https://www.figma.com/file/ABC123/my-design?node-id=1%3A2" =
    Except.ok ⟨FigmaUrlType.File "ABC123" (some "1%3A2"), "https://www.figma.com/file/ABC123/my-design?node-id=1%3A2"⟩ := by decide
example : FigmaUrlParser.parse "https://www.figma.com/files/project/123456" =
    Except.ok ⟨FigmaUrlType.Unknown, "https://www.figma.com/files/project/123456"⟩ := by decide
example : FigmaUrlParser.parse "https://example.com" =
    Except.error (Error.InvalidUrl "Not a Figma URL: https://example.com") := by decide
example : FigmaUrlParser.parse "https://figma.com/file/ABC123/my-design" =
    Except.ok ⟨FigmaUrlType.File "ABC123" none, "https://figma.com/file/ABC123/my-design"⟩ := by decide
example : FigmaUrlParser.parse "http://www.figma.com/file/ABC123/my-design" =
    Except.ok ⟨FigmaUrlType.File "ABC123" none, "http://www.figma.com/file/ABC123/my-design"⟩ := by decide
example : FigmaUrlParser.parse "https://www.figma.com/design/ABC123/my-design?node-id=201-95620" =
    Except.ok ⟨FigmaUrlType.File "ABC123" (some "201-95620"), "https://www.figma.com/design/ABC123/my-design?node-id=201-95620"⟩ := by decide
example : FigmaUrlParser.parse "https://figma.com:8080/file/ABC123" =
    Except.ok ⟨FigmaUrlType.Unknown, "https://figma.com:8080/file/ABC123"⟩ := by decide

theorem toList_append (s t : String) : (s ++ t).toList = s.toList ++ t.toList := rfl

theorem stringMk_toList (s : String) : String.mk s.toList = s := rfl

theorem stripPre_eq_append (p : List Char) : ∀ s r : List Char,
    stripPre p s = some r → s = p ++ r := by
  induction p with
  | nil =>
    intro s r h
    simpa [stripPre] using h
  | cons x xs ih =>
    intro s r h
    cases s with
    | nil => simp [stripPre] at h
    | cons c cs =>
      by_cases hc : c = x
      · subst hc
        simp only [stripPre, if_pos rfl] at h
        rw [List.cons_append, ih cs r h]
      · simp [stripPre, hc] at h

theorem nodeIdCapture_none_of_no_eq (l : List Char) (h : '=' ∉ l) :
    nodeIdCapture l = none := by
  induction l with
  | nil => rfl
  | cons c cs ih =>
    have hcs : '=' ∉ cs := fun hx => h (List.mem_cons_of_mem _ hx)
    rw [nodeIdCapture, ih hcs]
    cases hsp : stripPre ['n', 'o', 'd', 'e', '-', 'i', 'd', '='] (c :: cs) with
    | none => simp
    | some after =>
      exfalso
      apply h
      rw [stripPre_eq_append _ _ _ hsp]
      exact List.mem_append_left _ (by decide)

theorem nodeIdCapture_cons_ne (x : Char) (rest : List Char) (hx : x ≠ 'n') :
    nodeIdCapture (x :: rest) = nodeIdCapture rest := by
  rw [nodeIdCapture]
  have hsp : stripPre ['n', 'o', 'd', 'e', '-', 'i', 'd', '='] (x :: rest) = none := by
    simp [stripPre, hx]
  rw [hsp]
  cases nodeIdCapture rest <;> simp

theorem nodeIdCapture_direct (v : List Char) (hv : v ≠ [])
    (hamp : ∀ c ∈ v, (c != '&') = true) (heq : '=' ∉ v) :
    nodeIdCapture (['n', 'o', 'd', 'e', '-', 'i', 'd', '='] ++ v) = some v := by
  have hrest : nodeIdCapture (['o', 'd', 'e', '-', 'i', 'd', '='] ++ v) = none := by
    simp only [List.cons_append, List.nil_append]
    rw [nodeIdCapture_cons_ne 'o' _ (by decide), nodeIdCapture_cons_ne 'd' _ (by decide),
      nodeIdCapture_cons_ne 'e' _ (by decide), nodeIdCapture_cons_ne '-' _ (by decide),
      nodeIdCapture_cons_ne 'i' _ (by decide), nodeIdCapture_cons_ne 'd' _ (by decide),
      nodeIdCapture_cons_ne '=' _ (by decide)]
    exact nodeIdCapture_none_of_no_eq v heq
  have hstrip : stripPre ['n', 'o', 'd', 'e', '-', 'i', 'd', '=']
      (['n', 'o', 'd', 'e', '-', 'i', 'd', '='] ++ v) = some v := stripPre_same_append _ _
  have hspan : spanCL (fun x => x != '&') v = (v, []) := spanCL_all _ _ hamp
  show (match nodeIdCapture (['o', 'd', 'e', '-', 'i', 'd', '='] ++ v) with
        | some v' => some v'
        | none =>
          match stripPre ['n', 'o', 'd', 'e', '-', 'i', 'd', '=']
              (['n', 'o', 'd', 'e', '-', 'i', 'd', '='] ++ v) with
          | some after =>
            let w := (spanCL (fun x => x != '&') after).1
            if w = [] then none else some w
          | none => none) = some v
  rw [hrest, hstrip]
  simp [hspan, hv]

theorem urlHostCL_figma (r : List Char) :
    urlHostCL ("https://figma.com/".toList ++ r) = some ("figma.com".toList) := rfl

theorem urlHostCL_wwwfigma (r : List Char) :
    urlHostCL ("https://www.figma.com/".toList ++ r) = some ("www.figma.com".toList) := rfl

theorem fileRegexCL_tail_plain (id : List Char) (hid : id ≠ [])
    (ha : ∀ c ∈ id, c.isAlphanum = true) :
    (let fid := (spanCL Char.isAlphanum id).1
     if fid = [] then (none : Option (List Char × Option (List Char)))
     else
       let r5 := (spanCL Char.isAlphanum id).2
       let r6 := if r5.head? = some '/' then (spanCL (fun c => c != '?') r5).2 else r5
       match r6 with
       | '?' :: q => some (fid, nodeIdCapture q)
       | _ => some (fid, none)) = some (id, none) := by
  rw [spanCL_all _ _ ha]
  simp [hid]

theorem fileRegexCL_file_nowww (id : List Char) (hid : id ≠ [])
    (ha : ∀ c ∈ id, c.isAlphanum = true) :
    fileRegexCL ("https://figma.com/file/".toList ++ id) = some (id, none) :=
  fileRegexCL_tail_plain id hid ha

theorem fileRegexCL_design_nowww (id : List Char) (hid : id ≠ [])
    (ha : ∀ c ∈ id, c.isAlphanum = true) :
    fileRegexCL ("https://figma.com/design/".toList ++ id) = some (id, none) :=
  fileRegexCL_tail_plain id hid ha

theorem fileRegexCL_file_www (id : List Char) (hid : id ≠ [])
    (ha : ∀ c ∈ id, c.isAlphanum = true) :
    fileRegexCL ("https://www.figma.com/file/".toList ++ id) = some (id, none) :=
  fileRegexCL_tail_plain id hid ha

theorem fileRegexCL_design_www (id : List Char) (hid : id ≠ [])
    (ha : ∀ c ∈ id, c.isAlphanum = true) :
    fileRegexCL ("https://www.figma.com/design/".toList ++ id) = some (id, none) :=
  fileRegexCL_tail_plain id hid ha

theorem fileRegexCL_design_www_query (id v : List Char) (hid : id ≠ [])
    (ha : ∀ c ∈ id, c.isAlphanum = true) (hv : v ≠ [])
    (hamp : ∀ c ∈ v, (c != '&') = true) (heq : '=' ∉ v) :
    fileRegexCL ("https://www.figma.com/design/".toList ++
        (id ++ ("/name?node-id=".toList ++ v))) = some (id, some v) := by
  have h1 : spanCL Char.isAlphanum (id ++ ("/name?node-id=".toList ++ v))
      = (id, '/' :: ("name?node-id=".toList ++ v)) :=
    spanCL_all_append_stop Char.isAlphanum id '/' ("name?node-id=".toList ++ v) ha (by decide)
  have h2 : spanCL (fun c => c != '?') ('/' :: ("name?node-id=".toList ++ v))
      = ('/' :: "name".toList, '?' :: ("node-id=".toList ++ v)) :=
    spanCL_all_append_stop (fun c => c != '?') ('/' :: "name".toList) '?'
      ("node-id=".toList ++ v) (by decide) (by decide)
  have h3 : nodeIdCapture ("node-id=".toList ++ v) = some v :=
    nodeIdCapture_direct v hv hamp heq
  show (let fid := (spanCL Char.isAlphanum (id ++ ("/name?node-id=".toList ++ v))).1
        if fid = [] then (none : Option (List Char × Option (List Char)))
        else
          let r5 := (spanCL Char.isAlphanum (id ++ ("/name?node-id=".toList ++ v))).2
          let r6 := if r5.head? = some '/' then (spanCL (fun c => c != '?') r5).2 else r5
          match r6 with
          | '?' :: q => some (fid, nodeIdCapture q)
          | _ => some (fid, none)) = some (id, some v)
  rw [h1]
  simp only [hid, if_neg, List.head?_cons, if_pos, h2, h3]
  simp [hid]

/-- C6 (amended): for every URL, a parsed host other than figma.com /
www.figma.com fails InvalidUrl; an accepted host whose raw string does not
match the file regex classifies Unknown (a success); and for canonical URLs
whose raw string is exactly scheme, optional www, figma.com and a file or
design segment followed by an alphanumeric identifier, the result is File
with that identifier. -/
theorem c6_two_tier_classification (u : String) :
    (∀ host, urlHostCL u.toList = some host →
      host ≠ "figma.com".toList → host ≠ "www.figma.com".toList →
      FigmaUrlParser.parse u = Except.error (Error.InvalidUrl ("Not a Figma URL: " ++ u)))
    ∧ (∀ host, urlHostCL u.toList = some host →
      (host = "figma.com".toList ∨ host = "www.figma.com".toList) →
      fileRegexCL u.toList = none →
      FigmaUrlParser.parse u = Except.ok ⟨FigmaUrlType.Unknown, u⟩)
    ∧ (∀ (pre kw id : String), (pre = "https://" ∨ pre = "https://www.") →
      (kw = "file" ∨ kw = "design") → id ≠ "" →
      (∀ c ∈ id.toList, c.isAlphanum = true) →
      u = pre ++ "figma.com/" ++ kw ++ "/" ++ id →
      FigmaUrlParser.parse u = Except.ok ⟨FigmaUrlType.File id none, u⟩) := by
  refine ⟨fun host hh h1 h2 => ?_, fun host hh hacc hre => ?_,
    fun pre kw id hpre hkw hid ha hu => ?_⟩
  · simp only [FigmaUrlParser.parse, hh]
    rw [if_neg (not_or.mpr ⟨h1, h2⟩)]
  · simp only [FigmaUrlParser.parse, hh, hre]
    rw [if_pos hacc]
  · have hid2 : id.toList ≠ [] := fun hl => hid (String.ext hl)
    subst hu
    rcases hpre with rfl | rfl <;> rcases hkw with rfl | rfl
    · have hhost : urlHostCL ("https://" ++ "figma.com/" ++ "file" ++ "/" ++ id).toList
          = some ("figma.com".toList) :=
        urlHostCL_figma ("file/".toList ++ id.toList)
      have hre : fileRegexCL ("https://" ++ "figma.com/" ++ "file" ++ "/" ++ id).toList
          = some (id.toList, none) := fileRegexCL_file_nowww id.toList hid2 ha
      simp only [FigmaUrlParser.parse, hhost, hre]
      simp [stringMk_toList]
    · have hhost : urlHostCL ("https://" ++ "figma.com/" ++ "design" ++ "/" ++ id).toList
          = some ("figma.com".toList) :=
        urlHostCL_figma ("design/".toList ++ id.toList)
      have hre : fileRegexCL ("https://" ++ "figma.com/" ++ "design" ++ "/" ++ id).toList
          = some (id.toList, none) := fileRegexCL_design_nowww id.toList hid2 ha
      simp only [FigmaUrlParser.parse, hhost, hre]
      simp [stringMk_toList]
    · have hhost : urlHostCL ("https://www." ++ "figma.com/" ++ "file" ++ "/" ++ id).toList
          = some ("www.figma.com".toList) :=
        urlHostCL_wwwfigma ("file/".toList ++ id.toList)
      have hre : fileRegexCL ("https://www." ++ "figma.com/" ++ "file" ++ "/" ++ id).toList
          = some (id.toList, none) := fileRegexCL_file_www id.toList hid2 ha
      simp only [FigmaUrlParser.parse, hhost, hre]
      simp [stringMk_toList]
    · have hhost : urlHostCL ("https://www." ++ "figma.com/" ++ "design" ++ "/" ++ id).toList
          = some ("www.figma.com".toList) :=
        urlHostCL_wwwfigma ("design/".toList ++ id.toList)
      have hre : fileRegexCL ("https://www." ++ "figma.com/" ++ "design" ++ "/" ++ id).toList
          = some (id.toList, none) := fileRegexCL_design_www id.toList hid2 ha
      simp only [FigmaUrlParser.parse, hhost, hre]
      simp [stringMk_toList]

theorem c6_two_tier_classification_witness :
    FigmaUrlParser.parse "https://example.com" =
      Except.error (Error.InvalidUrl "Not a Figma URL: https://example.com")
    ∧ FigmaUrlParser.parse "https://www.figma.com/files/project/123456" =
      Except.ok ⟨FigmaUrlType.Unknown, "https://www.figma.com/files/project/123456"⟩
    ∧ FigmaUrlParser.parse "https://figma.com/design/XY9" =
      Except.ok ⟨FigmaUrlType.File "XY9" none, "https://figma.com/design/XY9"⟩ := by
  refine ⟨?_, ?_, ?_⟩
  · exact (c6_two_tier_classification "https://example.com").1 "example.com".toList
      (by decide) (by decide) (by decide)
  · exact (c6_two_tier_classification "https://www.figma.com/files/project/123456").2.1
      "www.figma.com".toList (by decide) (Or.inr rfl) (by decide)
  · exact (c6_two_tier_classification "https://figma.com/design/XY9").2.2
      "https://" "design" "XY9" (Or.inl rfl) (Or.inr rfl) (by decide) (by decide) (by decide)

/-- C6 counterexample: an accepted-host URL whose path starts with the
segments file / ABC123 but whose authority carries an explicit port — the
claim requires classification as File, the code classifies Unknown because
the regex runs on the raw string and does not admit a port. -/
theorem c6_port_url_counterexample :
    urlHostCL "https://figma.com:8080/file/ABC123".toList = some "figma.com".toList
    ∧ urlPathCL "https://figma.com:8080/file/ABC123".toList = some "/file/ABC123".toList
    ∧ FigmaUrlParser.parse "https://figma.com:8080/file/ABC123" =
        Except.ok ⟨FigmaUrlType.Unknown, "https://figma.com:8080/file/ABC123"⟩ := by
  exact ⟨by decide, by decide, by decide⟩

/-- C7: a node-id query value on a canonical design URL is captured
verbatim (no decoding), for every identifier and every nonempty value
free of the separators the regex keys on. -/
theorem c7_node_id_verbatim (id v : String) (hid : id ≠ "")
    (ha : ∀ c ∈ id.toList, c.isAlphanum = true) (hv : v ≠ "")
    (hamp : ∀ c ∈ v.toList, (c != '&') = true) (heq : '=' ∉ v.toList) :
    FigmaUrlParser.parse ("https://www.figma.com/design/" ++ id ++ "/name?node-id=" ++ v)
      = Except.ok ⟨FigmaUrlType.File id (some v),
          "https://www.figma.com/design/" ++ id ++ "/name?node-id=" ++ v⟩ := by
  have hid2 : id.toList ≠ [] := fun hl => hid (String.ext hl)
  have hv2 : v.toList ≠ [] := fun hl => hv (String.ext hl)
  have hhost : urlHostCL ("https://www.figma.com/design/" ++ id ++ "/name?node-id=" ++ v).toList
      = some ("www.figma.com".toList) :=
    urlHostCL_wwwfigma ("design/".toList ++ (id.toList ++ ("/name?node-id=".toList ++ v.toList)))
  have harg : ("https://www.figma.com/design/" ++ id ++ "/name?node-id=" ++ v).toList
      = "https://www.figma.com/design/".toList ++
          (id.toList ++ ("/name?node-id=".toList ++ v.toList)) := by
    simp only [toList_append, List.append_assoc]
  have hre : fileRegexCL ("https://www.figma.com/design/" ++ id ++ "/name?node-id=" ++ v).toList
      = some (id.toList, some v.toList) := by
    rw [harg]
    exact fileRegexCL_design_www_query id.toList v.toList hid2 ha hv2 hamp heq
  simp only [FigmaUrlParser.parse, hhost, hre]
  simp [stringMk_toList]

theorem c7_node_id_verbatim_witness :
    FigmaUrlParser.parse "https://www.figma.com/design/ABC123/name?node-id=1%3A2"
      = Except.ok ⟨FigmaUrlType.File "ABC123" (some "1%3A2"),
          "https://www.figma.com/design/ABC123/name?node-id=1%3A2"⟩ := by
  have h := c7_node_id_verbatim "ABC123" "1%3A2" (by decide) (by decide) (by decide)
    (by decide) (by decide)
  have e : ("https://www.figma.com/design/" ++ "ABC123" ++ "/name?node-id=" ++ "1%3A2" : String)
      = "https://www.figma.com/design/ABC123/name?node-id=1%3A2" := by decide
  rw [e] at h
  exact h

/-- Minimal model of the serde_json values the dispatcher inspects. -/
inductive Json where
  | str (s : String)
  | obj (fields : List (String × Json))
  | other

/-- First field with the given key of a JSON object's field list. -/
def lookupField : List (String × Json) → String → Option Json
  | [], _ => none
  | (k, v) :: rest, key => if k = key then some v else lookupField rest key

/-- `Value::get(key)` on objects. -/
def Json.get : Json → String → Option Json
  | Json.obj fields, key => lookupField fields key
  | _, _ => none

/-- `Value::as_str`. -/
def Json.as_str : Json → Option String
  | Json.str s => some s
  | _ => none

/-- `Value::as_object`. -/
def Json.as_obj : Json → Option (List (String × Json))
  | Json.obj fields => some fields
  | _ => none

/-- `str::split(',')` with an accumulator for the current piece. -/
def splitCommaCL (acc : List Char) : List Char → List String
  | [] => [String.mk acc.reverse]
  | c :: cs =>
    if c = ',' then String.mk acc.reverse :: splitCommaCL [] cs
    else splitCommaCL (c :: acc) cs

/-- `str::trim`: whitespace removed from both ends. -/
def trimCL (l : List Char) : List Char :=
  ((l.dropWhile Char.isWhitespace).reverse.dropWhile Char.isWhitespace).reverse

/-- `node_ids.split(',').map(|s| s.trim().to_string())` from src/server.rs. -/
def splitCommaTrim (s : String) : List String :=
  (splitCommaCL [] s.toList).map (fun t => String.mk (trimCL t.toList))

/-- `Vec::join(",")`. -/
def joinComma : List String → String
  | [] => ""
  | [s] => s
  | s :: rest => s ++ "," ++ joinComma rest

/-- Rust's `{}` display of the f64 scale appended to the query string;
integral values print with no fractional part, which is all any claim
depends on. -/
def showF64 (q : ℚ) : String :=
  if q.den = 1 then toString q.num else toString q.num ++ "/" ++ toString q.den

def FIGMA_API_BASE : String := "https://api.figma.com/v1"

/-- URL construction of `FigmaClient::export_images` (src/figma/client.rs
lines 75-91): ids and format always in the query, `&scale=` appended only
when a scale is present. -/
def FigmaClient.export_images_url (file_id : String) (node_ids : List String)
    (format : String) (scale : Option ℚ) : String :=
  let base := FIGMA_API_BASE ++ "/images/" ++ file_id ++ "?ids=" ++ joinComma node_ids
      ++ "&format=" ++ format
  match scale with
  | some s => base ++ "&scale=" ++ showF64 s
  | none => base

/-- URL construction of `FigmaClient::get_file` (src/figma/client.rs lines
28-32): `?depth=` appended only when a depth is present. -/
def FigmaClient.get_file_url (file_id : String) (depth : Option Nat) : String :=
  let base := FIGMA_API_BASE ++ "/files/" ++ file_id
  match depth with
  | some d => base ++ "?depth=" ++ toString d
  | none => base

/-- `ExportImageRequest` from src/server.rs: format and scale optional. -/
structure ExportImageRequest where
  file_key : String
  node_ids : String
  format : Option String
  scale : Option ℚ
deriving DecidableEq, Repr

/-- The argument tuple of one `FigmaClient::export_images` invocation. -/
structure ExportCall where
  file_key : String
  node_ids : List String
  format : String
  scale : Option ℚ
deriving DecidableEq, Repr

/-- The gateway call the dispatcher builds for a request (src/server.rs
lines 137-146): node ids split on commas and trimmed, format defaulted to
"png", and the scale passed through exactly as received. -/
def dispatchCall (req : ExportImageRequest) : ExportCall :=
  { file_key := req.file_key, node_ids := splitCommaTrim req.node_ids,
    format := req.format.getD "png", scale := req.scale }

/-- `ImageCache::register_export` together with its write-lock acquisition:
a poisoned lock fails with Internal and changes nothing. -/
def register_export_r (poisoned : Bool) (m : CacheMap) (now : Nat)
    (file_key node_id format : String) (scale : ℚ) (figma_url : String) :
    Except Error (String × CacheMap) :=
  if poisoned then Except.error (Error.Internal "Failed to acquire lock")
  else Except.ok (ImageCache.register_export m now file_key node_id format scale figma_url)

/-- The registration loop of the dispatcher (src/server.rs lines 155-168):
one best-effort `register_export` per (node_id, url) pair whose value is a
JSON string, every failure discarded as the source's `let _ =` does. -/
def registerLoop (poisoned : Bool) (m : CacheMap) (now : Nat)
    (file_key format : String) (scale : ℚ) :
    List (String × Option String) → CacheMap
  | [] => m
  | (nid, ourl) :: rest =>
    let m2 := match ourl with
      | some url =>
        match register_export_r poisoned m now file_key nid format scale url with
        | Except.ok r => r.2
        | Except.error _ => m
      | none => m
    registerLoop poisoned m2 now file_key format scale rest

/-- The (node_id, url-if-string) pairs of the payload's `images` object. -/
def jsonImages (j : Json) : Option (List (String × Option String)) :=
  ((Json.get j "images").bind Json.as_obj).map (fun fields =>
    fields.map (fun pr => (pr.1, Json.as_str pr.2)))

/-- The `export_images` dispatcher (src/server.rs lines 128-174): defaults
format to "png" and scale to 1.0, calls the gateway with the defaulted
format and the original optional scale, then best-effort registers each
exported image with the defaulted scale; the payload returned is the
gateway payload regardless of the registrations. -/
def server_export_images (poisoned : Bool) (m : CacheMap) (now : Nat)
    (req : ExportImageRequest) (gateway : ExportCall → Except String Json) :
    Except String Json × CacheMap :=
  let format := req.format.getD "png"
  let scale_value := req.scale.getD 1
  match gateway (dispatchCall req) with
  | Except.error e => (Except.error e, m)
  | Except.ok result =>
    let m2 := match jsonImages result with
      | some pairs => registerLoop poisoned m now req.file_key format scale_value pairs
      | none => m
    (Except.ok result, m2)

theorem registerLoop_poisoned (m : CacheMap) (now : Nat) (fk fmt : String) (sc : ℚ)
    (pairs : List (String × Option String)) :
    registerLoop true m now fk fmt sc pairs = m := by
  induction pairs with
  | nil => rfl
  | cons pr rest ih =>
    obtain ⟨nid, ourl⟩ := pr
    cases ourl <;> simp [registerLoop, register_export_r, ih]

theorem generate_uri_inj (fk fmt : String) (sc : ℚ) (n1 n2 : String)
    (h : ImageCache.generate_uri fk n1 fmt sc = ImageCache.generate_uri fk n2 fmt sc) :
    n1 = n2 := by
  unfold ImageCache.generate_uri at h
  by_cases hs : sc ≠ 1
  · rw [if_pos hs, if_pos hs] at h
    have hd := congrArg String.toList h
    simp only [toList_append, List.append_assoc] at hd
    have h1 := List.append_cancel_left hd
    have h2 := List.append_cancel_left h1
    have h3 := List.append_cancel_left h2
    exact String.ext (List.append_cancel_right h3)
  · rw [if_neg hs, if_neg hs] at h
    have hd := congrArg String.toList h
    simp only [toList_append, List.append_assoc] at hd
    have h1 := List.append_cancel_left hd
    have h2 := List.append_cancel_left h1
    have h3 := List.append_cancel_left h2
    exact String.ext (List.append_cancel_right h3)

theorem registerLoop_lookup_preserved (now : Nat) (fk fmt : String) (sc : ℚ)
    (pairs : List (String × Option String)) (uri : String) :
    ∀ m : CacheMap,
    (∀ nid ourl, (nid, ourl) ∈ pairs → ImageCache.generate_uri fk nid fmt sc ≠ uri) →
    ImageCache.get_entry (registerLoop false m now fk fmt sc pairs) uri =
      ImageCache.get_entry m uri := by
  induction pairs with
  | nil => intro m _; rfl
  | cons pr rest ih =>
    intro m h
    obtain ⟨nid, ourl⟩ := pr
    cases ourl with
    | none =>
      simp only [registerLoop]
      exact ih m (fun n o hm => h n o (List.mem_cons_of_mem _ hm))
    | some url =>
      simp only [registerLoop, register_export_r, Bool.false_eq_true, if_false,
        ImageCache.register_export]
      rw [ih _ (fun n o hm => h n o (List.mem_cons_of_mem _ hm))]
      exact lookupAL_insertAL_ne m _ uri _
        (fun he => h nid (some url) (List.mem_cons_self _ _) he.symm)

theorem registerLoop_lookup_mem (now : Nat) (fk fmt : String) (sc : ℚ)
    (pairs : List (String × Option String)) (nid url : String) :
    ∀ m : CacheMap, (nid, some url) ∈ pairs → (pairs.map Prod.fst).Nodup →
    ImageCache.get_entry (registerLoop false m now fk fmt sc pairs)
        (ImageCache.generate_uri fk nid fmt sc)
      = some ⟨fk, nid, fmt, sc, url, none, now⟩ := by
  induction pairs with
  | nil => intro m hm _; exact absurd hm (List.not_mem_nil _)
  | cons pr rest ih =>
    intro m hm hnd
    obtain ⟨nid0, ourl0⟩ := pr
    have hnd' : (rest.map Prod.fst).Nodup := (List.nodup_cons.mp (by simpa using hnd)).2
    have hhead : nid0 ∉ rest.map Prod.fst := (List.nodup_cons.mp (by simpa using hnd)).1
    rcases List.mem_cons.mp hm with heq | hm'
    · cases heq
      simp only [registerLoop, register_export_r, Bool.false_eq_true, if_false,
        ImageCache.register_export]
      rw [registerLoop_lookup_preserved now fk fmt sc rest _ _ ?hne]
      case hne =>
        intro n o hmem hgen
        exact hhead (by
          have hn : n = nid := generate_uri_inj fk fmt sc n nid hgen
          subst hn
          exact List.mem_map_of_mem Prod.fst hmem)
      simp only [ImageCache.get_entry]
      exact lookupAL_insertAL_self _ _ _
    · have hne0 : nid0 ≠ nid := by
        intro hne
        subst hne
        exact hhead (List.mem_map_of_mem Prod.fst hm')
      simp only [registerLoop]
      exact ih _ hm' hnd'

/-- C9: after a successful gateway export the dispatcher registers each
returned (node_id, url) pair with the request's file_key, defaulted format
and defaulted scale, and ignores every registration failure: the returned
payload is independent of the cache state and of lock poisoning, a
successful gateway result is returned as-is, a poisoned lock (every
registration failing) leaves the cache unchanged without failing the
export, and with working registrations each exported pair is present in
the final cache. -/
theorem c9_best_effort_registration (m m2 : CacheMap) (now : Nat)
    (req : ExportImageRequest) (g : ExportCall → Except String Json)
    (p p2 : Bool) (result : Json) :
    ((server_export_images p m now req g).1 = (server_export_images p2 m2 now req g).1)
    ∧ (g (dispatchCall req) = Except.ok result →
        (server_export_images p m now req g).1 = Except.ok result)
    ∧ ((server_export_images true m now req g).2 = m)
    ∧ (∀ pairs nid url,
        g (dispatchCall req) = Except.ok result →
        jsonImages result = some pairs →
        (nid, some url) ∈ pairs →
        (pairs.map Prod.fst).Nodup →
        ImageCache.get_entry (server_export_images false m now req g).2
            (ImageCache.generate_uri req.file_key nid (req.format.getD "png")
              (req.scale.getD 1))
          = some ⟨req.file_key, nid, req.format.getD "png", req.scale.getD 1,
              url, none, now⟩) := by
  refine ⟨?_, fun h => ?_, ?_, fun pairs nid url hg hj hmem hnd => ?_⟩
  · cases hg : g (dispatchCall req) <;> simp [server_export_images, hg]
  · simp [server_export_images, h]
  · cases hg : g (dispatchCall req) with
    | error e => simp [server_export_images, hg]
    | ok r =>
      cases hj : jsonImages r <;> simp [server_export_images, hg, hj, registerLoop_poisoned]
  · simp only [server_export_images, hg, hj]
    exact registerLoop_lookup_mem now req.file_key (req.format.getD "png")
      (req.scale.getD 1) pairs nid url m hmem hnd

theorem c9_best_effort_registration_witness :
    ImageCache.get_entry
        (server_export_images false [] 5 ⟨"F", "7", some "png", some 2⟩
          (fun _ => Except.ok (Json.obj [("images", Json.obj [("7", Json.str "u1")])]))).2
        (ImageCache.generate_uri "F" "7" "png" 2)
      = some ⟨"F", "7", "png", 2, "u1", none, 5⟩
    ∧ (server_export_images true [] 5 ⟨"F", "7", some "png", some 2⟩
          (fun _ => Except.ok (Json.obj [("images", Json.obj [("7", Json.str "u1")])]))).2
      = ([] : CacheMap) := by
  have h := c9_best_effort_registration [] [] 5 ⟨"F", "7", some "png", some 2⟩
    (fun _ => Except.ok (Json.obj [("images", Json.obj [("7", Json.str "u1")])])) false false
    (Json.obj [("images", Json.obj [("7", Json.str "u1")])])
  exact ⟨h.2.2.2 [("7", some "u1")] "7" "u1" rfl rfl (by decide) (by decide), h.2.2.1⟩

/-- C8 (amended): with format and scale absent, the dispatcher consults the
gateway only at the call with format defaulted to "png" and the scale left
absent; cache registrations use the defaults "png" and 1.0; and the client
appends depth and scale to the query string only when present, omitting the
parameter entirely when absent. -/
theorem c8_dispatcher_defaults (m : CacheMap) (now : Nat) (fk nids nid url : String)
    (g g2 : ExportCall → Except String Json) (p : Bool)
    (ids : List String) (fmt fid : String) (s : ℚ) (d : Nat) :
    (g { file_key := fk, node_ids := splitCommaTrim nids, format := "png", scale := none }
        = g2 { file_key := fk, node_ids := splitCommaTrim nids, format := "png", scale := none } →
      server_export_images p m now ⟨fk, nids, none, none⟩ g
        = server_export_images p m now ⟨fk, nids, none, none⟩ g2)
    ∧ (g { file_key := fk, node_ids := splitCommaTrim nids, format := "png", scale := none }
        = Except.ok (Json.obj [("images", Json.obj [(nid, Json.str url)])]) →
      ImageCache.get_entry (server_export_images false m now ⟨fk, nids, none, none⟩ g).2
          (ImageCache.generate_uri fk nid "png" 1)
        = some ⟨fk, nid, "png", 1, url, none, now⟩)
    ∧ FigmaClient.export_images_url fid ids fmt none
        = FIGMA_API_BASE ++ "/images/" ++ fid ++ "?ids=" ++ joinComma ids ++ "&format=" ++ fmt
    ∧ FigmaClient.export_images_url fid ids fmt (some s)
        = FigmaClient.export_images_url fid ids fmt none ++ "&scale=" ++ showF64 s
    ∧ FigmaClient.get_file_url fid none = FIGMA_API_BASE ++ "/files/" ++ fid
    ∧ FigmaClient.get_file_url fid (some d)
        = FigmaClient.get_file_url fid none ++ "?depth=" ++ toString d := by
  refine ⟨fun h => ?_, fun h => ?_, rfl, rfl, rfl, rfl⟩
  · simp only [server_export_images, dispatchCall, Option.getD_none]
    rw [h]
  · simp only [server_export_images, dispatchCall, Option.getD_none]
    rw [h]
    simp only [jsonImages, Json.get, lookupField, if_pos rfl, Json.as_obj, Option.bind,
      Option.map, List.map, Json.as_str, registerLoop, register_export_r,
      Bool.false_eq_true, if_false, ImageCache.register_export, ImageCache.get_entry]
    exact lookupAL_insertAL_self _ _ _

theorem c8_dispatcher_defaults_witness :
    server_export_images false [] 3 ⟨"F", "1", none, none⟩
        (fun _ => Except.ok Json.other)
      = server_export_images false [] 3 ⟨"F", "1", none, none⟩
        (fun _ => Except.ok Json.other)
    ∧ ImageCache.get_entry
        (server_export_images false [] 3 ⟨"F", "1", none, none⟩
          (fun _ => Except.ok (Json.obj [("images", Json.obj [("1", Json.str "u")])]))).2
        (ImageCache.generate_uri "F" "1" "png" 1)
      = some ⟨"F", "1", "png", 1, "u", none, 3⟩
    ∧ FigmaClient.export_images_url "F" ["1"] "png" none
      = FIGMA_API_BASE ++ "/images/" ++ "F" ++ "?ids=" ++ joinComma ["1"] ++ "&format=" ++ "png"
    ∧ FigmaClient.export_images_url "F" ["1"] "png" (some 2)
      = FigmaClient.export_images_url "F" ["1"] "png" none ++ "&scale=" ++ showF64 2 := by
  have h := c8_dispatcher_defaults [] 3 "F" "1" "1" "u"
    (fun _ => Except.ok (Json.obj [("images", Json.obj [("1", Json.str "u")])]))
    (fun _ => Except.ok (Json.obj [("images", Json.obj [("1", Json.str "u")])])) false
    ["1"] "png" "F" 2 0
  exact ⟨(c8_dispatcher_defaults [] 3 "F" "1" "1" "u"
      (fun _ => Except.ok Json.other) (fun _ => Except.ok Json.other) false
      ["1"] "png" "F" 2 0).1 rfl,
    h.2.1 rfl, h.2.2.1, h.2.2.2.1⟩

/-- C8 counterexample: when the request carries no scale, the gateway call
does not receive scale 1.0 — a gateway distinguishing `some 1` from `none`
observes `none` — and the generated export URL carries no scale parameter
at all. -/
theorem c8_raw_scale_counterexample :
    (server_export_images false [] 0 ⟨"F", "1", none, none⟩
        (fun c => Except.ok (Json.str (if c.scale = some 1 then "defaulted" else "raw")))).1
      = Except.ok (Json.str "raw")
    ∧ FigmaClient.export_images_url "F" ["1"] "png" none
      = "https://api.figma.com/v1/images/F?ids=1&format=png" := by
  exact ⟨rfl, rfl⟩
